import Mathlib

/-!
# Verification of the SingularityNET MPE payment-channel engine

A shallow embedding, in Lean 4, of the payment-channel core of the
`n8n-nodes-singularitynet` repository, together with theorems settling the
specification's claims about it.

Embedding conventions:
* JavaScript `number` values are modelled by an exact IEEE-754 binary64
  model over integers (`F`, `JsNum` below): a finite double is a dyadic
  rational `m * 2^e` and every arithmetic operation rounds correctly to 53
  significant bits (round to nearest, ties to even), with `NaN` and the
  infinities tracked explicitly.  Gradual underflow (subnormals) is not
  modelled — every value handled by the claims is far inside the normal
  range — and overflow to the infinities is modelled exactly.
* JavaScript `bigint` values are modelled by `ℤ` (they are arbitrary
  precision integers).
* Fallible code (`throw` / `try-catch`) is modelled with `Except`.
* `Record<string, string>` values are modelled as association lists
  `List (String × String)` in insertion order.
-/

/-! ## IEEE-754 binary64 model (exact, over integers) -/

/-- A finite binary64 value `m * 2^e`.  Values produced by the operations
below are normalised: either `m = 0 ∧ e = 0`, or `2^52 ≤ |m| < 2^53`, so
that structural equality coincides with value equality. -/
structure F where
  m : ℤ
  e : ℤ
  deriving DecidableEq

/-- Number of binary digits of `n` (fuelled, structurally recursive so that
the kernel can evaluate it). -/
def bitLen : Nat → Nat → Nat
  | 0, _ => 0
  | fuel+1, n => if n = 0 then 0 else bitLen fuel (n / 2) + 1

/-- Attach a sign bit to a natural mantissa. -/
def signedF (sign : Bool) (m : ℕ) (e : ℤ) : F :=
  ⟨if sign then -(m : ℤ) else (m : ℤ), e⟩

/-- Round `sign * n * 2^k` (with `n > 0`) to 53 significant bits, ties to
even.  `sticky = true` records that the true magnitude is strictly between
`n * 2^k` and `(n+1) * 2^k`, which suppresses ties. -/
def roundBits (sign : Bool) (n : Nat) (k : ℤ) (sticky : Bool) : F :=
  let len := bitLen 4400 n
  if len ≤ 53 then
    let m := n * 2^(53 - len)
    let e := k - (53 - len)
    signedF sign m e
  else
    let shift := len - 53
    let q := n / 2^shift
    let r := n % 2^shift
    let half := 2^(shift - 1)
    let up : Bool :=
      if r < half then false
      else if half < r then true
      else if sticky then true
      else q % 2 = 1
    let m0 := if up then q + 1 else q
    let m := if m0 = 2^53 then 2^52 else m0
    let e := if m0 = 2^53 then k + shift + 1 else k + shift
    signedF sign m e

/-- Round the exact dyadic value `p * 2^k` to binary64 precision. -/
def roundDyadic (p : ℤ) (k : ℤ) : F :=
  if p = 0 then ⟨0, 0⟩ else roundBits (p < 0) p.natAbs k false

/-- The binary64 value nearest to the integer `c`. -/
def ofInt (c : ℤ) : F := roundDyadic c 0

/-- Correctly rounded binary64 multiplication (unbounded exponent; overflow
is checked at the `JsNum` level). -/
def mulF (a b : F) : F := roundDyadic (a.m * b.m) (a.e + b.e)

/-- Correctly rounded binary64 division (unbounded exponent); the divisor
must be nonzero (callers handle zero).  The quotient is computed with 120
guard bits and a sticky flag for the remainder, which determines the
correctly rounded result. -/
def divF (a b : F) : F :=
  if a.m = 0 then ⟨0, 0⟩ else
  let p := a.m.natAbs * 2^120
  let q := b.m.natAbs
  let quot := p / q
  let rem := p % q
  roundBits ((a.m < 0) ≠ (b.m < 0)) quot (a.e - b.e - 120) (rem ≠ 0)

/-- `Math.floor` of a finite binary64 value, as an integer (exact in IEEE
arithmetic, hence exact here). -/
def floorF (a : F) : ℤ :=
  if 0 ≤ a.e then a.m * 2^a.e.toNat else Int.fdiv a.m (2^(-a.e).toNat)

/-- `Math.ceil` of a finite binary64 value, as an integer. -/
def ceilF (a : F) : ℤ := -(floorF ⟨-a.m, a.e⟩)

/-- Whether the finite value `a` satisfies `a < c` for an integer `c`. -/
def fltInt (a : F) (c : ℤ) : Bool :=
  if 0 ≤ a.e then a.m * 2^a.e.toNat < c else a.m < c * 2^(-a.e).toNat

/-- A JavaScript `number`: a finite binary64 value, `NaN`, or an infinity. -/
inductive JsNum
  | num (f : F)
  | nan
  | inf
  | ninf
  deriving DecidableEq

/-- Magnitudes of `2^1024` or more overflow to the infinities
(IEEE round-to-nearest overflow rule: a normalised mantissa with
`e ≥ 972` means `|value| ≥ 2^1024`). -/
def checkOverflow (f : F) : JsNum :=
  if f.m ≠ 0 ∧ 972 ≤ f.e then (if 0 < f.m then .inf else .ninf) else .num f

/-- `Number(c)` for a `bigint` `c`: correctly rounded, overflowing to the
infinities. -/
def jsOfBigInt (c : ℤ) : JsNum := checkOverflow (ofInt c)

/-- JavaScript `*` on numbers. -/
def jsMul (x y : JsNum) : JsNum :=
  match x, y with
  | .nan, _ => .nan
  | _, .nan => .nan
  | .num a, .num b => checkOverflow (mulF a b)
  | .inf, .inf => .inf
  | .inf, .ninf => .ninf
  | .ninf, .inf => .ninf
  | .ninf, .ninf => .inf
  | .inf, .num b => if b.m = 0 then .nan else if 0 < b.m then .inf else .ninf
  | .num a, .inf => if a.m = 0 then .nan else if 0 < a.m then .inf else .ninf
  | .ninf, .num b => if b.m = 0 then .nan else if 0 < b.m then .ninf else .inf
  | .num a, .ninf => if a.m = 0 then .nan else if 0 < a.m then .ninf else .inf

/-- JavaScript `/` on numbers. -/
def jsDiv (x y : JsNum) : JsNum :=
  match x, y with
  | .nan, _ => .nan
  | _, .nan => .nan
  | .inf, .inf => .nan
  | .inf, .ninf => .nan
  | .ninf, .inf => .nan
  | .ninf, .ninf => .nan
  | .inf, .num b => if 0 ≤ b.m then .inf else .ninf
  | .ninf, .num b => if 0 ≤ b.m then .ninf else .inf
  | .num _, .inf => .num ⟨0, 0⟩
  | .num _, .ninf => .num ⟨0, 0⟩
  | .num a, .num b =>
    if b.m = 0 then
      (if a.m = 0 then .nan else if 0 < a.m then .inf else .ninf)
    else checkOverflow (divF a b)

/-! ## `src/nodes/Singularitynet/utils/unitConverter.ts`

`COGS_PER_AGIX = 100000000` (`src/nodes/Singularitynet/constants/networks.ts`).
The converters below embed the `number` branch of each source function (the
`string` branch first applies `parseFloat`; every claim applies them to
numeric values).  `BigInt(x)` throws a `RangeError` when `x` is `NaN` or an
infinity, which is modelled with `Except`. -/

deriving instance DecidableEq for Except

/-- `Math.floor` then `BigInt(...)`: throws on `NaN` and the infinities. -/
def jsBigIntOfFloor (x : JsNum) : Except String ℤ :=
  match x with
  | .num f => .ok (floorF f)
  | _ => .error "RangeError: not an integer"

/-- `Math.ceil` then `BigInt(...)`: throws on `NaN` and the infinities. -/
def jsBigIntOfCeil (x : JsNum) : Except String ℤ :=
  match x with
  | .num f => .ok (ceilF f)
  | _ => .error "RangeError: not an integer"

/-- `agixToCogs(agix) = BigInt(Math.floor(agixNum * COGS_PER_AGIX))`. -/
def agixToCogs (agix : JsNum) : Except String ℤ :=
  jsBigIntOfFloor (jsMul agix (.num (ofInt 100000000)))

/-- `cogsToAgix(cogs) = Number(cogsNum) / COGS_PER_AGIX`. -/
def cogsToAgix (cogs : ℤ) : JsNum :=
  jsDiv (jsOfBigInt cogs) (.num (ofInt 100000000))

/-- `ethToWei(eth) = BigInt(Math.floor(ethNum * 1e18))`. -/
def ethToWei (eth : JsNum) : Except String ℤ :=
  jsBigIntOfFloor (jsMul eth (.num (ofInt 1000000000000000000)))

/-- `weiToEth(wei) = Number(weiNum) / 1e18`. -/
def weiToEth (wei : ℤ) : JsNum :=
  jsDiv (jsOfBigInt wei) (.num (ofInt 1000000000000000000))

/-- `adaToLovelace(ada) = BigInt(Math.floor(adaNum * 1e6))`. -/
def adaToLovelace (ada : JsNum) : Except String ℤ :=
  jsBigIntOfFloor (jsMul ada (.num (ofInt 1000000)))

/-- `lovelaceToAda(lovelace) = Number(lovelaceNum) / 1e6`. -/
def lovelaceToAda (lovelace : ℤ) : JsNum :=
  jsDiv (jsOfBigInt lovelace) (.num (ofInt 1000000))

/-- `validateAmount(amount) = !isNaN(num) && num >= 0 && num <
Number.MAX_SAFE_INTEGER` (`MAX_SAFE_INTEGER = 2^53 - 1`). -/
def validateAmount (amount : JsNum) : Bool :=
  match amount with
  | .nan => false
  | .inf => false
  | .ninf => false
  | .num f => (0 ≤ f.m) && fltInt f (2^53 - 1)

/-! ## `src/unnamed/part_005` — payment utilities (numeric part) -/

/-- `calculateMinimumDeposit(pricePerCall, estimatedCalls, safetyMultiplier
= 1.2)`: `baseDeposit = pricePerCall * BigInt(estimatedCalls)`, then
`BigInt(Math.ceil(Number(baseDeposit) * safetyMultiplier))`.
`estimatedCalls` is an integral `number` (`BigInt(estimatedCalls)` throws
otherwise) and is modelled by `ℤ`; `safetyMultiplier` is an arbitrary
`number`. -/
def calculateMinimumDeposit (pricePerCall : ℤ) (estimatedCalls : ℤ)
    (safetyMultiplier : JsNum) : Except String ℤ :=
  let baseDeposit := pricePerCall * estimatedCalls
  jsBigIntOfCeil (jsMul (jsOfBigInt baseDeposit) safetyMultiplier)

/-- The binary64 value of the literal `1.1` (the nearest double to 11/10,
which is what both a JavaScript source literal and the division `11/10`
produce). -/
def lit1p1 : JsNum := jsDiv (jsOfBigInt 11) (jsOfBigInt 10)

/-- The binary64 value of the literal `1.2` (default `safetyMultiplier`). -/
def lit1p2 : JsNum := jsDiv (jsOfBigInt 12) (jsOfBigInt 10)

/-! ## Bytes, hex and base64 (`Buffer` semantics)

Byte sequences are `List ℕ` with every entry `< 256`. -/

/-- Value of a hex digit (`Buffer.from(-, 'hex')` accepts both cases). -/
def hexDigitVal (c : Char) : Option ℕ :=
  if '0' ≤ c ∧ c ≤ '9' then some (c.toNat - '0'.toNat)
  else if 'a' ≤ c ∧ c ≤ 'f' then some (c.toNat - 'a'.toNat + 10)
  else if 'A' ≤ c ∧ c ≤ 'F' then some (c.toNat - 'A'.toNat + 10)
  else none

/-- `Buffer.from(s, 'hex')`: decodes hex digit pairs, stopping at the first
invalid pair (a trailing lone digit is dropped). -/
def hexDecodePairs : List Char → List ℕ
  | c1 :: c2 :: rest =>
    match hexDigitVal c1, hexDigitVal c2 with
    | some h, some l => (h * 16 + l) :: hexDecodePairs rest
    | _, _ => []
  | _ => []

/-- Lower-case hex digit of `n < 16`. -/
def hexChar (n : ℕ) : Char :=
  if n < 10 then Char.ofNat ('0'.toNat + n) else Char.ofNat ('a'.toNat + n - 10)

/-- Lower-case hex rendering of a byte sequence. -/
def hexEncodeChars : List ℕ → List Char
  | [] => []
  | b :: rest => hexChar (b / 16) :: hexChar (b % 16) :: hexEncodeChars rest

/-- The base64 alphabet (RFC 4648, the one `Buffer.toString('base64')`
uses). -/
def b64Alphabet : List Char :=
  "ABCDEFGHIJKLMNOPQRSTUVWXYZabcdefghijklmnopqrstuvwxyz0123456789+/".data

/-- Character for the six-bit value `n < 64`. -/
def b64Char (n : ℕ) : Char := b64Alphabet.getD n 'A'

/-- Index of a character in the base64 alphabet (`=` and any other
character not in the alphabet give `none`). -/
def b64Index (c : Char) : Option ℕ :=
  let rec go : List Char → ℕ → Option ℕ
    | [], _ => none
    | a :: rest, i => if a = c then some i else go rest (i + 1)
  go b64Alphabet 0

/-- Base64 encoding of a byte sequence, three bytes to four characters,
with `=` padding (exactly `Buffer.prototype.toString('base64')`). -/
def b64EncodeChars : List ℕ → List Char
  | [] => []
  | [b0] => [b64Char (b0 / 4), b64Char (b0 % 4 * 16), '=', '=']
  | [b0, b1] => [b64Char (b0 / 4), b64Char (b0 % 4 * 16 + b1 / 16),
      b64Char (b1 % 16 * 4), '=']
  | b0 :: b1 :: b2 :: rest =>
    b64Char (b0 / 4) :: b64Char (b0 % 4 * 16 + b1 / 16) ::
      b64Char (b1 % 16 * 4 + b2 / 64) :: b64Char (b2 % 64) ::
      b64EncodeChars rest

/-- `Buffer.from(bytes).toString('base64')`. -/
def base64Encode (bs : List ℕ) : String := ⟨b64EncodeChars bs⟩

/-- Reassemble bytes from six-bit values (four sextets to three bytes; a
trailing pair or triple of sextets yields one or two bytes). -/
def b64FromSextets : List ℕ → List ℕ
  | s0 :: s1 :: s2 :: s3 :: rest =>
    (s0 * 4 + s1 / 16) :: (s1 % 16 * 16 + s2 / 4) :: (s2 % 4 * 64 + s3) ::
      b64FromSextets rest
  | [s0, s1] => [s0 * 4 + s1 / 16]
  | [s0, s1, s2] => [s0 * 4 + s1 / 16, s1 % 16 * 16 + s2 / 4]
  | _ => []

/-- `Buffer.from(s, 'base64')`: non-alphabet characters (including the
padding `=`) are skipped, then sextets are reassembled into bytes. -/
def base64Decode (s : String) : List ℕ :=
  b64FromSextets (s.data.filterMap b64Index)

/-- UTF-8 bytes of an ASCII string (`Buffer.from(s)` with the default
encoding; every string this is applied to is ASCII). -/
def asciiBytes (s : String) : List ℕ := s.data.map Char.toNat

/-! ## `src/unnamed/part_005` — metadata and the free-call token -/

/-- `generateFreeCallToken(...)` = `Buffer.from(signature).toString('base64')`
where `signature` is the hex signature string (with its `0x`) returned by
`signMessage`: the UTF-8 *text* of the signature is base64-encoded.  This
is the wire-format part of the function, as a function of that hex
string. -/
def freeCallTokenOfSignature (signature : String) : String :=
  base64Encode (asciiBytes signature)

/-- `createPaymentMetadata(channelId, nonce, amount, signature)` from
`src/unnamed/part_005`; `signature.signature` is the hex string of the
signature and `slice(2)` strips its `0x` (modelled on the character
list). -/
def createPaymentMetadata (channelId nonce : ℕ) (amount : ℕ)
    (signature : String) : List (String × String) :=
  [("snet-payment-type", "escrow"),
   ("snet-payment-channel-id", toString channelId),
   ("snet-payment-channel-nonce", toString nonce),
   ("snet-payment-channel-amount", toString amount),
   ("snet-payment-channel-signature-bin",
     base64Encode (hexDecodePairs (signature.data.drop 2)))]

/-- `createFreeCallMetadata(userAddress, organizationId, serviceId,
authToken, currentBlock)` from `src/unnamed/part_005`. -/
def createFreeCallMetadata (userAddress : String)
    (_organizationId _serviceId : String) (authToken : String)
    (currentBlock : ℕ) : List (String × String) :=
  [("snet-payment-type", "free-call"),
   ("snet-free-call-user-id", userAddress),
   ("snet-current-block-number", toString currentBlock),
   ("snet-free-call-auth-token-bin", authToken),
   ("snet-payment-channel-signature-bin", "")]

namespace GrpcClient

/-- `GrpcClient.createPaymentMetadata(channelId, nonce, amount, signature)`
from `src/unnamed/part_004` (the signature is passed as its hex string
directly). -/
def createPaymentMetadata (channelId nonce : ℕ) (amount : ℕ)
    (signature : String) : List (String × String) :=
  [("snet-payment-type", "escrow"),
   ("snet-payment-channel-id", toString channelId),
   ("snet-payment-channel-nonce", toString nonce),
   ("snet-payment-channel-amount", toString amount),
   ("snet-payment-channel-signature-bin",
     base64Encode (hexDecodePairs (signature.data.drop 2)))]

/-- `GrpcClient.createFreeCallMetadata(userId, organizationId, serviceId,
token, blockNumber)` from `src/unnamed/part_004`. -/
def createFreeCallMetadata (userId : String)
    (_organizationId _serviceId : String) (token : String)
    (blockNumber : ℕ) : List (String × String) :=
  [("snet-payment-type", "free-call"),
   ("snet-free-call-user-id", userId),
   ("snet-current-block-number", toString blockNumber),
   ("snet-free-call-auth-token-bin", token),
   ("snet-payment-channel-signature-bin", "")]

end GrpcClient

/-! ## Keccak-256

An executable Keccak-256 (the hash behind `ethers.id` and the EIP-55
address checksum), over byte lists.  Lanes are 64-bit values as `ℕ` masked
to `2^64`; the state is the flat list of 25 lanes, lane `(x, y)` at index
`x + 5*y`.  The π/ρ and round-constant tables are the standard ones (π:
lane `(x, y)` moves to `(y, 2x+3y mod 5)`; ρ offsets `(t+1)(t+2)/2 mod 64`
along the π orbit of `(1, 0)`; round constants from the degree-8 LFSR).
The implementation reproduces the standard test vectors (see the
`keccak256_empty_vector` theorem below). -/

/-- 64-bit left rotation. -/
def rotl64 (v n : ℕ) : ℕ :=
  let n := n % 64
  ((v <<< n) ||| (v >>> (64 - n))) % 2^64

/-- Lane `i` of a Keccak state. -/
def lane (A : List ℕ) (i : ℕ) : ℕ := A.getD i 0

/-- Keccak θ step. -/
def keccakTheta (A : List ℕ) : List ℕ :=
  let C := (List.range 5).map fun x =>
    lane A x ^^^ lane A (x+5) ^^^ lane A (x+10) ^^^ lane A (x+15) ^^^ lane A (x+20)
  let D := (List.range 5).map fun x =>
    C.getD ((x+4) % 5) 0 ^^^ rotl64 (C.getD ((x+1) % 5) 0) 1
  (List.range 25).map fun i => lane A i ^^^ D.getD (i % 5) 0

/-- Source lane index for each destination in the π step. -/
def piSrc : List ℕ := [0, 6, 12, 18, 24, 3, 9, 10, 16, 22, 1, 7, 13, 19, 20, 4, 5, 11, 17, 23, 2, 8, 14, 15, 21]

/-- ρ rotation amount for each destination in the π step. -/
def rhoRot : List ℕ := [0, 44, 43, 21, 14, 28, 20, 3, 45, 61, 1, 6, 25, 8, 18, 27, 36, 10, 15, 56, 62, 55, 39, 41, 2]

/-- Keccak ρ and π steps combined. -/
def keccakRhoPi (A : List ℕ) : List ℕ :=
  (List.range 25).map fun j => rotl64 (lane A (piSrc.getD j 0)) (rhoRot.getD j 0)

/-- Keccak χ step. -/
def keccakChi (A : List ℕ) : List ℕ :=
  (List.range 25).map fun i =>
    let x := i % 5
    let y := i / 5
    lane A i ^^^ (((2^64 - 1) ^^^ lane A ((x+1) % 5 + 5*y)) &&& lane A ((x+2) % 5 + 5*y))

/-- One step of the degree-8 LFSR (taps from x^8 + x^6 + x^5 + x^4 + 1)
that generates the ι round constants. -/
def rcStep (R : ℕ) : ℕ := ((R <<< 1) ^^^ ((R >>> 7) * 0x71)) % 256

/-- Round constant and next LFSR state for one round: bit `2^j - 1` of the
constant is bit 1 of the LFSR after its `j`-th step, `j = 0..6`. -/
def rcRound (R : ℕ) : ℕ × ℕ :=
  (List.range 7).foldl
    (fun (p : ℕ × ℕ) j =>
      let R2 := rcStep p.2
      (p.1 + (if R2 / 2 % 2 = 1 then 2^(2^j - 1) else 0), R2))
    (0, R)

/-- The 24 ι round constants, generated by the LFSR from initial state
1. -/
def keccakRCs : List ℕ :=
  ((List.range 24).foldl
    (fun (p : List ℕ × ℕ) _ =>
      let w := rcRound p.2
      (p.1 ++ [w.1], w.2))
    ([], 1)).1

/-- One Keccak round: θ, ρ, π, χ, ι. -/
def keccakRound (A : List ℕ) (rc : ℕ) : List ℕ :=
  let B := keccakChi (keccakRhoPi (keccakTheta A))
  (List.range 25).map fun i => if i = 0 then lane B 0 ^^^ rc else lane B i

/-- The Keccak-f[1600] permutation. -/
def keccakF (A : List ℕ) : List ℕ := keccakRCs.foldl keccakRound A

/-- Little-endian 64-bit lane `i` of a 136-byte block. -/
def blockLane (block : List ℕ) (i : ℕ) : ℕ :=
  ((block.drop (8*i)).take 8).foldr (fun b acc => b + 256 * acc) 0

/-- Keccak pad10*1 with the Keccak domain byte `0x01` (not the SHA-3
`0x06`), to a multiple of the 136-byte rate. -/
def keccakPad (msg : List ℕ) : List ℕ :=
  let padlen := 136 - msg.length % 136
  msg ++ (if padlen = 1 then [0x81]
          else 0x01 :: (List.replicate (padlen - 2) 0 ++ [0x80]))

/-- Absorb the padded message block by block (fuelled on the block count). -/
def absorbBlocks : ℕ → List ℕ → List ℕ → List ℕ
  | 0, A, _ => A
  | fuel+1, A, msg =>
    if msg.isEmpty then A
    else
      let block := msg.take 136
      let A2 := keccakF ((List.range 25).map fun i =>
        lane A i ^^^ (if i < 17 then blockLane block i else 0))
      absorbBlocks fuel A2 (msg.drop 136)

/-- The eight little-endian bytes of a 64-bit lane. -/
def laneBytes (v : ℕ) : List ℕ := (List.range 8).map fun j => v / 256^j % 256

/-- Keccak-256 of a byte list (32-byte digest). -/
def keccak256 (msg : List ℕ) : List ℕ :=
  let padded := keccakPad msg
  let A := absorbBlocks (padded.length / 136 + 1) (List.replicate 25 0) padded
  (List.range 4).foldr (fun i acc => laneBytes (lane A i) ++ acc) []

/-! ## `ethers.isAddress` (EIP-55 checksummed hex, or ICAP)

`EthereumClient.isValidAddress` (ethereumClient.ts) delegates to
`ethers.isAddress`, which accepts (i) a 40-hex-digit string with optional
`0x`, requiring the EIP-55 checksum to match whenever the string mixes
upper- and lower-case hex letters, and (ii) an ICAP address
`XE` + 2 check digits + 30-31 base-36 characters with a valid ISO-13616
mod-97 checksum. -/

/-- Hex digit (either case), as in the `ethers` address regular
expression. -/
def isHexDigitChar (c : Char) : Bool :=
  ('0' ≤ c && c ≤ '9') || ('a' ≤ c && c ≤ 'f') || ('A' ≤ c && c ≤ 'F')

/-- The body is 40 hex digits. -/
def hex40 (l : List Char) : Bool := l.all isHexDigitChar && (l.length == 40)

/-- Some upper-case hex letter `A`-`F` occurs. -/
def hasUpperHexLetter (l : List Char) : Bool := l.any fun c => 'A' ≤ c && c ≤ 'F'

/-- Some lower-case hex letter `a`-`f` occurs. -/
def hasLowerHexLetter (l : List Char) : Bool := l.any fun c => 'a' ≤ c && c ≤ 'f'

/-- EIP-55 checksummed form of a 40-hex-digit address body: hash the
lower-cased body as ASCII with Keccak-256 and upper-case exactly the
letters whose corresponding hash nibble is 8 or more
(`getChecksumAddress` in `ethers`). -/
def getChecksumAddressBody (body : List Char) : List Char :=
  let lower := body.map Char.toLower
  let hashed := keccak256 (lower.map Char.toNat)
  lower.enum.map fun p =>
    let nib := if p.1 % 2 = 0 then hashed.getD (p.1 / 2) 0 / 16
               else hashed.getD (p.1 / 2) 0 % 16
    if 8 ≤ nib then p.2.toUpper else p.2

/-- Decimal digit. -/
def isDigitChar (c : Char) : Bool := '0' ≤ c && c ≤ '9'

/-- Base-36 character (digit or letter of either case). -/
def isBase36Char (c : Char) : Bool :=
  isDigitChar c || ('A' ≤ c && c ≤ 'Z') || ('a' ≤ c && c ≤ 'z')

/-- Shape of an ICAP address: `XE`, two check digits, then 30 or 31
base-36 characters. -/
def icapShape (l : List Char) : Bool :=
  match l with
  | 'X' :: 'E' :: d1 :: d2 :: rest =>
    isDigitChar d1 && isDigitChar d2 && rest.all isBase36Char &&
      (rest.length == 30 || rest.length == 31)
  | _ => false

/-- ISO-13616 mod-97 check of an ICAP address (`ibanChecksum` in `ethers`:
rotate, expand letters to two decimal digits, and the two check digits must
equal `98 - (N mod 97)`). -/
def ibanChecksumOk (l : List Char) : Bool :=
  let up := l.map Char.toUpper
  let rearranged := up.drop 4 ++ up.take 2 ++ ['0', '0']
  let digits := rearranged.foldr (fun c acc =>
    (if isDigitChar c then [c.toNat - 48]
     else [(c.toNat - 55) / 10, (c.toNat - 55) % 10]) ++ acc) []
  let n := digits.foldl (fun acc d => acc * 10 + d) 0
  let chk := 98 - n % 97
  ((l.getD 2 ' ').toNat == chk / 10 + 48) && ((l.getD 3 ' ').toNat == chk % 10 + 48)

/-- The ICAP alternative of `ethers.getAddress`. -/
def icapOk (l : List Char) : Bool := icapShape l && ibanChecksumOk l

/-- `ethers.isAddress`: `getAddress` in a `try-catch`, `true` iff no
throw. -/
def ethersIsAddress (s : String) : Bool :=
  match s.data with
  | '0' :: 'x' :: rest =>
    if hex40 rest then
      (if hasUpperHexLetter rest && hasLowerHexLetter rest
       then decide (getChecksumAddressBody rest = rest)
       else true)
    else icapOk ('0' :: 'x' :: rest)
  | l =>
    if hex40 l then
      (if hasUpperHexLetter l && hasLowerHexLetter l
       then decide (getChecksumAddressBody l = l)
       else true)
    else icapOk l

namespace EthereumClient

/-- `EthereumClient.isValidAddress(address) = ethers.isAddress(address)`
(ethereumClient.ts). -/
def isValidAddress (address : String) : Bool := ethersIsAddress address

end EthereumClient

namespace CardanoClient

/-- Lower-case letter or digit (the character class of the Cardano address
pattern). -/
def isLowerAlnum (c : Char) : Bool :=
  ('a' ≤ c && c ≤ 'z') || ('0' ≤ c && c ≤ '9')

/-- `CardanoClient.isValidAddress(address)` (cardanoClient.ts): the test of
the anchored pattern `addr`, optional `_test`, `1`, then one or more of
`[a-z0-9]`. -/
def isValidAddress (s : String) : Bool :=
  match s.data with
  | 'a' :: 'd' :: 'd' :: 'r' :: rest =>
    (match rest with
     | '_' :: 't' :: 'e' :: 's' :: 't' :: '1' :: payload =>
        !payload.isEmpty && payload.all isLowerAlnum
     | '1' :: payload => !payload.isEmpty && payload.all isLowerAlnum
     | _ => false)
  | _ => false

end CardanoClient

/-! ## `ethers.getAddress` (address normalisation)

`solidityPackedKeccak256` packs every `'address'`-typed field through
`ethers.getAddress`, which rejects invalid addresses and returns the
EIP-55 checksummed normal form — so case-variant renderings of one
address pack to identical bytes.  The model shares `hex40`,
`getChecksumAddressBody` and the ICAP helpers with `ethersIsAddress`
above (`isAddress` is `getAddress` in a `try-catch`). -/

/-- Base-36 value of the payload of an ICAP address. -/
def fromBase36 (l : List Char) : ℕ :=
  l.foldl (fun acc c =>
    acc * 36 + (if isDigitChar c then c.toNat - 48
                else if 'A' ≤ c && c ≤ 'Z' then c.toNat - 55
                else c.toNat - 87)) 0

/-- Big-endian lower-case hex digits of `n` (fuelled, no leading
zeros). -/
def natHexChars : ℕ → ℕ → List Char
  | 0, _ => []
  | fuel+1, n => if n = 0 then [] else natHexChars fuel (n / 16) ++ [hexChar (n % 16)]

/-- The 40-hex-digit body an ICAP address converts to
(`fromBase36(address.substring(4)).toString(16)` padded to 40). -/
def icapToHexBody (l : List Char) : List Char :=
  let digits := natHexChars 64 (fromBase36 (l.drop 4))
  List.replicate (40 - digits.length) '0' ++ digits

/-- `ethers.getAddress(s)`: accepts a 40-hex-digit string with optional
`0x` (requiring the EIP-55 checksum to match when the letters mix case)
or a checksum-valid ICAP address, and returns the `0x`-prefixed EIP-55
checksummed normal form; throws otherwise. -/
def getAddress (s : String) : Except String String :=
  let l := s.data
  let body? : Option (List Char) :=
    match l with
    | '0' :: 'x' :: rest => if hex40 rest then some rest else none
    | _ => if hex40 l then some l else none
  match body? with
  | some body =>
    if (hasUpperHexLetter body && hasLowerHexLetter body)
        && !(decide (getChecksumAddressBody body = body)) then
      .error "bad address checksum"
    else .ok ⟨'0' :: 'x' :: getChecksumAddressBody body⟩
  | none =>
    if icapOk l then .ok ⟨'0' :: 'x' :: getChecksumAddressBody (icapToHexBody l)⟩
    else .error "invalid address"

/-! ## `src/unnamed/part_005` — signing and verification

The cryptographic primitives of the `ethers` library are idealised
symbolically, in the standard Dolev-Yao style:

* `ethers.solidityPackedKeccak256` applied to the two type/value templates
  used by the source is modelled by the inductive `MsgHash`, whose two
  constructors carry exactly the fields packed by the source (the distinct
  domain-separation tags `__MPE_claim_message` and `__free_call_prefix`
  become the distinct constructors).  Injectivity of the constructors is
  the idealisation of collision resistance — of the packed *bytes*, so the
  `'address'`-typed field is stored in the normal form `getAddress`
  produces (the packer applies `getAddress`, and throws on an invalid
  address): case-variant renderings of one address yield the same hash.
  The `uint256`-encoded fields are modelled by `ℕ` (negative values would
  make the encoding throw).
* `ethers.Wallet.signMessage` over a hash is modelled by
  `SigStr.valid address hash`; a string that is not a well-formed
  signature is `SigStr.malformed raw`.
* `ethers.verifyMessage` throws on a malformed signature, and otherwise
  recovers an address: the signer's address when the message equals the
  signed one, and (idealising EUF-CMA security) an unrelated address —
  modelled by `spuriousAddr`, which is distinct from every genuine
  address because it is strictly longer — when the message differs. -/

/-- The two `solidityPackedKeccak256` message templates of the source:
`['string','address','uint256','uint256','uint256']` with tag
`__MPE_claim_message`, and `['string','address','string','string','uint256']`
with tag `__free_call_prefix`.  The address argument of each constructor
is the `getAddress`-normalised rendering (see `mpeClaimHash`). -/
inductive MsgHash
  | mpeClaim (mpeAddress : String) (channelId : ℕ) (nonce : ℕ) (amount : ℕ)
  | freeCall (userAddress : String) (organizationId : String)
      (serviceId : String) (currentBlock : ℕ)
  deriving DecidableEq

/-- A signature string: either the well-formed signature of `msg` by the
wallet whose address is `signerAddr`, or a malformed string. -/
inductive SigStr
  | valid (signerAddr : String) (msg : MsgHash)
  | malformed (raw : String)
  deriving DecidableEq

/-- An `ethers.Wallet`, identified by its (checksummed) address string. -/
structure Wallet where
  address : String
  deriving DecidableEq

/-- The address recovered by `ethers.verifyMessage` when the queried
message differs from the signed one: some address unrelated to the signer.
It is longer than every genuine address, hence never equal to one, even
after lower-casing. -/
def spuriousAddr (signerAddr : String) : String :=
  "spurious-recovery-" ++ signerAddr

/-- `String.prototype.toLowerCase()` (ASCII; addresses are ASCII). -/
def jsToLowerCase (s : String) : String := ⟨s.data.map Char.toLower⟩

/-- `ethers.verifyMessage(message, signature)`: throws on a malformed
signature, otherwise recovers an address. -/
def recoverAddress (msg : MsgHash) (sig : SigStr) : Except String String :=
  match sig with
  | .malformed raw => .error ("invalid raw signature " ++ raw)
  | .valid a m => .ok (if m = msg then a else spuriousAddr a)

/-- `ethers.solidityPackedKeccak256(['string','address','uint256','uint256',
'uint256'], ['__MPE_claim_message', mpeAddress, channelId, nonce, amount])`:
the address field is normalised through `getAddress`, which throws on an
invalid address. -/
def mpeClaimHash (mpeAddress : String) (channelId nonce amount : ℕ) :
    Except String MsgHash :=
  match getAddress mpeAddress with
  | .ok a => .ok (.mpeClaim a channelId nonce amount)
  | .error e => .error e

/-- `generatePaymentSignature(signer, mpeAddress, channelId, nonce, amount)`:
hashes the packed claim message and signs it with the wallet (a throw from
the packer — invalid `mpeAddress` — propagates, there is no catch).  The
source also returns the `v`, `r`, `s` components; only the signature
string is modelled. -/
def generatePaymentSignature (signer : Wallet) (mpeAddress : String)
    (channelId nonce amount : ℕ) : Except String SigStr :=
  match mpeClaimHash mpeAddress channelId nonce amount with
  | .ok msg => .ok (.valid signer.address msg)
  | .error e => .error e

/-- `verifyPaymentSignature(mpeAddress, channelId, nonce, amount, signature,
expectedSigner)`: recomputes the claim hash, recovers the signer, and
compares lower-cased; the `try ... catch` returns `false` on any throw
(from the packer or from recovery). -/
def verifyPaymentSignature (mpeAddress : String) (channelId nonce amount : ℕ)
    (signature : SigStr) (expectedSigner : String) : Bool :=
  match mpeClaimHash mpeAddress channelId nonce amount with
  | .error _ => false
  | .ok msg =>
    match recoverAddress msg signature with
    | .ok recovered =>
        if jsToLowerCase recovered = jsToLowerCase expectedSigner then true else false
    | .error _ => false

/-! ## `EthereumClient.openChannel` and `EthereumClient.getChannel`
(ethereumClient.ts)

The blockchain transport (`ethers.Contract` calls, `tx.wait()`) is the
external boundary; the embedded logic is what `openChannel` does with the
transaction receipt it awaited — find the `ChannelOpen` event among the
logs and read the channel id from its second topic — and what `getChannel`
does with the positional tuple returned by the contract's `channels`
mapping.  A JavaScript `number` that may be `NaN` (the result of
`parseInt`) is modelled by `Option ℕ`, `none` for `NaN`. -/

/-- A log entry of a transaction receipt. -/
structure EthLog where
  topics : List String
  deriving DecidableEq

/-- A mined transaction receipt (the fields `openChannel` reads). -/
structure TxReceipt where
  status : ℤ
  blockNumber : ℕ
  gasUsed : ℤ
  logs : List EthLog
  deriving DecidableEq

/-- `ethers.id(s)`: the `0x`-prefixed lower-case hex Keccak-256 of the
UTF-8 bytes of `s`. -/
def ethersId (s : String) : String :=
  ⟨'0' :: 'x' :: hexEncodeChars (keccak256 (asciiBytes s))⟩

/-- The event signature whose hash `openChannel` looks for. -/
def channelOpenEventSignature : String :=
  "ChannelOpen(uint256,uint256,address,address,address,bytes32,uint256,uint256)"

/-- The `find` callback: `log.topics[0] === ethers.id('ChannelOpen(...)')`
(`topics[0]` of an empty topic list is `undefined`, which compares unequal
to every string). -/
def isChannelOpenLog (log : EthLog) : Bool :=
  log.topics.head? == some (ethersId channelOpenEventSignature)

/-- `parseInt(t, 16)`: strip an optional `0x`/`0X`, read the maximal run
of hex digits, `NaN` (here `none`) if it is empty.  (The JavaScript
original also skips leading whitespace and a sign; the strings this is
applied to are `0x`-prefixed hex words.) -/
def parseIntHex (s : String) : Option ℕ :=
  let t := match s.data with
    | '0' :: 'x' :: r => r
    | '0' :: 'X' :: r => r
    | l => l
  let ds := t.takeWhile fun c => (hexDigitVal c).isSome
  if ds.isEmpty then none
  else some (ds.foldl (fun acc c => acc * 16 + (hexDigitVal c).getD 0) 0)

/-- `const event = receipt.logs.find(...); const channelId = event ?
parseInt(event.topics[1], 16) : 0`.  (`event.topics[1]` of a too-short
topic list is `undefined`, and `parseInt(undefined, 16)` is `NaN`.) -/
def extractChannelId (logs : List EthLog) : Option ℕ :=
  match logs.find? isChannelOpenLog with
  | none => some 0
  | some log =>
    match log.topics.get? 1 with
    | none => none
    | some t => parseIntHex t

namespace EthereumClient

/-- The result record of `openChannel`. -/
structure OpenChannelResult where
  channelId : Option ℕ
  txHash : String
  status : String
  deriving DecidableEq

/-- `EthereumClient.openChannel`, from the point where the confirmation
receipt has been awaited: extract the channel id from the `ChannelOpen`
event and assemble the result (no throw on a missing or malformed
event). -/
def openChannel (txHash : String) (receipt : TxReceipt) : OpenChannelResult :=
  { channelId := extractChannelId receipt.logs
    txHash := txHash
    status := if receipt.status = 1 then "success" else "failed" }

/-- The positional channel tuple `(nonce, sender, signer, recipient,
groupId, value, expiration)` returned by the contract's `channels`
mapping.  An EVM mapping read never fails: a never-assigned id yields the
all-zero tuple. -/
structure RawChannel where
  nonce : ℕ
  sender : String
  signer : String
  recipient : String
  groupId : String
  value : ℤ
  expiration : ℕ
  deriving DecidableEq

/-- The decoded channel record returned by `getChannel`. -/
structure ChannelInfo where
  channelId : ℕ
  nonce : ℕ
  sender : String
  signer : String
  recipient : String
  groupId : String
  value : ℤ
  expiration : ℕ
  deriving DecidableEq

/-- `EthereumClient.getChannel(channelId)`: throws only when the MPE
contract is not initialised (`this.contracts.mpe` is modelled by an
`Option`al total mapping, total because an EVM mapping read always
succeeds); otherwise decodes `channel[0]`..`channel[6]` positionally. -/
def getChannel (mpe : Option (ℕ → RawChannel)) (channelId : ℕ) :
    Except String ChannelInfo :=
  match mpe with
  | none => .error "MPE contract or wallet not initialized"
  | some channels =>
    let c := channels channelId
    .ok ⟨channelId, c.nonce, c.sender, c.signer, c.recipient, c.groupId,
         c.value, c.expiration⟩

end EthereumClient

/-- The all-zero EVM address (what an unassigned address slot decodes
to). -/
def zeroAddress : String := ⟨'0' :: 'x' :: List.replicate 40 '0'⟩

/-- The all-zero `bytes32` (what an unassigned `bytes32` slot decodes
to). -/
def zeroBytes32 : String := ⟨'0' :: 'x' :: List.replicate 64 '0'⟩

/-- A ledger on which no channel was ever assigned: every slot of the
`channels` mapping holds the all-zero tuple. -/
def emptyLedger : ℕ → EthereumClient.RawChannel :=
  fun _ => ⟨0, zeroAddress, zeroAddress, zeroAddress, zeroBytes32, 0, 0⟩

/-- The hex string of a 65-byte all-zero signature (the length `ethers`
signatures have). -/
def exampleSignatureHex : String := ⟨'0' :: 'x' :: List.replicate 130 '0'⟩

/-- A valid all-lower-case MPE address: `0x` followed by 40 `a`s. -/
def mpeLowerHex : String := ⟨'0' :: 'x' :: List.replicate 40 'a'⟩

/-- The EIP-55 checksummed rendering of `mpeLowerHex` (same address,
different string). -/
def mpeChecksummed : String := "0xaAaAaAaaAaAaAaaAaAAAAAAAAaaaAaAaAaaAaaAa"

/-!
# Theorems
-/

set_option maxRecDepth 1000000

/-- Sanity vector: Keccak-256 of the empty byte string. -/
theorem keccak256_empty_vector :
    keccak256 [] =
      [197, 210, 70, 1, 134, 247, 35, 60, 146, 126, 125, 178, 220, 199, 3,
       192, 229, 0, 182, 83, 202, 130, 39, 59, 123, 250, 216, 4, 93, 133,
       164, 112] := by
  decide

/-- Sanity vector: the EIP-55 checksum test address is accepted. -/
theorem eip55_vector_accepted :
    EthereumClient.isValidAddress "0x5aAeb6053F3E94C9b9A09f33669435E7Ef1BeAed" = true := by
  decide

/-- C2: the display-unit round trip is computed in binary64 floating point
and does not return `c` for every safe non-negative integer: 3 cogs come
back as 2, 447 wei as 446, 249 lovelace as 248. -/
theorem unit_roundtrip_fails_in_floating_point :
    agixToCogs (cogsToAgix 3) = .ok 2 ∧
    ethToWei (weiToEth 447) = .ok 446 ∧
    adaToLovelace (lovelaceToAda 249) = .ok 248 := by
  decide

/-- C3: `calculateMinimumDeposit` multiplies in binary64 floating point,
so at the specification's own example — 1000000 cogs per call, 100 calls,
multiplier 1.1 — it returns 110000001, not the exact integer ceiling
110000000. -/
theorem minimum_deposit_drifts_at_spec_example :
    calculateMinimumDeposit 1000000 100 lit1p1 = .ok 110000001 := by
  decide

/-- C10: the `snet-payment-type` key discriminates the two authorization
kinds — `free-call` (with an empty channel signature) from
`createFreeCallMetadata`, `escrow` from `createPaymentMetadata` — in both
the payment-utility and the gRPC-client builders. -/
theorem payment_type_discriminates_authorization_kinds :
    ∀ (u o sv t : String) (blk : ℕ) (cid nonce amt : ℕ) (sig : String),
    (createFreeCallMetadata u o sv t blk).lookup "snet-payment-type"
        = some "free-call" ∧
    (createFreeCallMetadata u o sv t blk).lookup "snet-payment-channel-signature-bin"
        = some "" ∧
    (createPaymentMetadata cid nonce amt sig).lookup "snet-payment-type"
        = some "escrow" ∧
    (GrpcClient.createFreeCallMetadata u o sv t blk).lookup "snet-payment-type"
        = some "free-call" ∧
    (GrpcClient.createFreeCallMetadata u o sv t blk).lookup "snet-payment-channel-signature-bin"
        = some "" ∧
    (GrpcClient.createPaymentMetadata cid nonce amt sig).lookup "snet-payment-type"
        = some "escrow" := by
  intro u o sv t blk cid nonce amt sig
  refine ⟨rfl, rfl, rfl, rfl, rfl, rfl⟩

/-- C6: `openChannel` reads the channel id from the `ChannelOpen` event of
the awaited receipt: when no log carries the `ChannelOpen` topic the
result is channel id 0 (and no error is raised — the function is total);
when a log matches, the id is `parseInt(topics[1], 16)` of that log. -/
theorem openChannel_extracts_id_from_event :
    ∀ (txHash : String) (receipt : TxReceipt),
    (receipt.logs.find? isChannelOpenLog = none →
      (EthereumClient.openChannel txHash receipt).channelId = some 0) ∧
    (∀ log, receipt.logs.find? isChannelOpenLog = some log →
      (EthereumClient.openChannel txHash receipt).channelId =
        (match log.topics.get? 1 with
         | none => none
         | some t => parseIntHex t)) := by
  intro txHash receipt
  constructor
  · intro h
    simp [EthereumClient.openChannel, extractChannelId, h]
  · intro log h
    simp [EthereumClient.openChannel, extractChannelId, h]

/-- Witness for `openChannel_extracts_id_from_event`: a receipt with no
logs yields channel id 0. -/
theorem openChannel_extracts_id_from_event_witness :
    (EthereumClient.openChannel "0xtx" ⟨1, 100, 0, []⟩).channelId = some 0 :=
  (openChannel_extracts_id_from_event "0xtx" ⟨1, 100, 0, []⟩).1 rfl

/-- C8 counterexample: on a ledger where no channel was ever assigned,
`getChannel 5` does not fail with `ChannelNotFound` — it succeeds with the
positionally-decoded all-zero channel. -/
theorem getChannel_returns_zero_tuple_for_unassigned_id :
    EthereumClient.getChannel (some emptyLedger) 5 =
      .ok ⟨5, 0, zeroAddress, zeroAddress, zeroAddress, zeroBytes32, 0, 0⟩ := by
  rfl

/-- C8 amended: `getChannel` performs no existence check: with an
initialised contract it returns the positionally-decoded channel tuple for
every id, assigned or not, and never raises `ChannelNotFound`; it throws
only when the MPE contract is not initialised. -/
theorem getChannel_decodes_positionally_never_notfound :
    (∀ (channels : ℕ → EthereumClient.RawChannel) (cid : ℕ),
      EthereumClient.getChannel (some channels) cid =
        .ok ⟨cid, (channels cid).nonce, (channels cid).sender,
             (channels cid).signer, (channels cid).recipient,
             (channels cid).groupId, (channels cid).value,
             (channels cid).expiration⟩) ∧
    (∀ cid : ℕ, EthereumClient.getChannel none cid =
      .error "MPE contract or wallet not initialized") := by
  exact ⟨fun channels cid => rfl, fun cid => rfl⟩

/-- The data of an appended string is the appended data. -/
theorem string_data_append (s t : String) : (s ++ t).data = s.data ++ t.data := by
  cases s; cases t; rfl

/-- Lower-casing a spurious recovered address never gives the lower-cased
address it was derived from: the former is 18 characters longer. -/
theorem jsToLowerCase_spuriousAddr_ne (a : String) :
    jsToLowerCase (spuriousAddr a) ≠ jsToLowerCase a := by
  intro h
  have hd := congrArg (fun s => s.data.length) h
  simp only [jsToLowerCase, spuriousAddr, string_data_append,
    List.map_append, List.length_append, List.length_map,
    List.length_cons, List.length_nil] at hd
  omega

/-- C1 counterexample: altering `mpeAddress` after signing does not always
make verification fail — the packed encoding normalises the address, so
signing with the all-lower-case rendering and verifying with the (different)
EIP-55 checksummed rendering of the same MPE address returns `true`. -/
theorem verify_accepts_case_variant_mpe_address :
    mpeChecksummed ≠ mpeLowerHex ∧
    generatePaymentSignature ⟨"0xSigner"⟩ mpeLowerHex 7 3 500 =
      .ok (.valid "0xSigner" (.mpeClaim mpeChecksummed 7 3 500)) ∧
    verifyPaymentSignature mpeChecksummed 7 3 500
      (.valid "0xSigner" (.mpeClaim mpeChecksummed 7 3 500)) "0xSigner" = true := by
  refine ⟨by decide, by decide, by decide⟩

/-- C1 amended: a claim signed by `generatePaymentSignature` verifies
`true` against the signer's address with the same arguments; altering
`channelId`, `nonce` or `cumulativeAmount` makes verification return
`false`; and altering `mpeAddress` makes it return `false` exactly when
the altered string names a different address — `getAddress`-distinct
renderings — while renderings that normalise to the same address still
verify `true` (the signature binds the normalised address and the three
numbers). -/
theorem sign_then_verify_binds_normalized_fields :
    ∀ (w : Wallet) (mpe : String) (cid nonce amt : ℕ) (sig : SigStr),
    generatePaymentSignature w mpe cid nonce amt = .ok sig →
    verifyPaymentSignature mpe cid nonce amt sig w.address = true ∧
    (∀ cid2, cid2 ≠ cid →
      verifyPaymentSignature mpe cid2 nonce amt sig w.address = false) ∧
    (∀ nonce2, nonce2 ≠ nonce →
      verifyPaymentSignature mpe cid nonce2 amt sig w.address = false) ∧
    (∀ amt2, amt2 ≠ amt →
      verifyPaymentSignature mpe cid nonce amt2 sig w.address = false) ∧
    (∀ mpe2, getAddress mpe2 ≠ getAddress mpe →
      verifyPaymentSignature mpe2 cid nonce amt sig w.address = false) ∧
    (∀ mpe2, getAddress mpe2 = getAddress mpe →
      verifyPaymentSignature mpe2 cid nonce amt sig w.address = true) := by
  intro w mpe cid nonce amt sig h
  cases hga : getAddress mpe with
  | error e =>
    rw [generatePaymentSignature, mpeClaimHash, hga] at h
    exact absurd h (by simp)
  | ok a =>
    rw [generatePaymentSignature, mpeClaimHash, hga] at h
    have hsig : sig = .valid w.address (.mpeClaim a cid nonce amt) := by
      simp at h
      exact h.symm
    subst hsig
    have hmh : ∀ c2 n2 a2, mpeClaimHash mpe c2 n2 a2 = .ok (.mpeClaim a c2 n2 a2) := by
      intro c2 n2 a2
      rw [mpeClaimHash, hga]
    refine ⟨?_, ?_, ?_, ?_, ?_, ?_⟩
    · simp [verifyPaymentSignature, hmh cid nonce amt, recoverAddress]
    · intro cid2 hne
      have hneq : MsgHash.mpeClaim a cid nonce amt ≠ .mpeClaim a cid2 nonce amt := by
        intro hh; injection hh with _ h2; exact hne h2.symm
      simp [verifyPaymentSignature, hmh cid2 nonce amt, recoverAddress, hneq,
        jsToLowerCase_spuriousAddr_ne w.address]
    · intro nonce2 hne
      have hneq : MsgHash.mpeClaim a cid nonce amt ≠ .mpeClaim a cid nonce2 amt := by
        intro hh; injection hh with _ _ h3; exact hne h3.symm
      simp [verifyPaymentSignature, hmh cid nonce2 amt, recoverAddress, hneq,
        jsToLowerCase_spuriousAddr_ne w.address]
    · intro amt2 hne
      have hneq : MsgHash.mpeClaim a cid nonce amt ≠ .mpeClaim a cid nonce amt2 := by
        intro hh; injection hh with _ _ _ h4; exact hne h4.symm
      simp [verifyPaymentSignature, hmh cid nonce amt2, recoverAddress, hneq,
        jsToLowerCase_spuriousAddr_ne w.address]
    · intro mpe2 hne
      cases hga2 : getAddress mpe2 with
      | error e2 => simp [verifyPaymentSignature, mpeClaimHash, hga2]
      | ok a2 =>
        have ha2 : a2 ≠ a := by
          intro hh
          exact hne (by rw [hga2, hh])
        have hneq : MsgHash.mpeClaim a cid nonce amt ≠ .mpeClaim a2 cid nonce amt := by
          intro hh; injection hh with h1; exact ha2 h1.symm
        simp [verifyPaymentSignature, mpeClaimHash, hga2, recoverAddress, hneq,
          jsToLowerCase_spuriousAddr_ne w.address]
    · intro mpe2 heq
      simp [verifyPaymentSignature, mpeClaimHash, heq, recoverAddress]

/-- Witness for `sign_then_verify_binds_normalized_fields` at a concrete
wallet and claim over `mpeLowerHex`: matching fields verify, an altered
channel id does not. -/
theorem sign_then_verify_binds_normalized_fields_witness :
    verifyPaymentSignature mpeLowerHex 7 3 500
      (.valid "0xSigner" (.mpeClaim mpeChecksummed 7 3 500)) "0xSigner" = true ∧
    verifyPaymentSignature mpeLowerHex 8 3 500
      (.valid "0xSigner" (.mpeClaim mpeChecksummed 7 3 500)) "0xSigner" = false :=
  (fun t => ⟨t.1, t.2.1 8 (by decide)⟩)
    (sign_then_verify_binds_normalized_fields ⟨"0xSigner"⟩ mpeLowerHex 7 3 500
      (.valid "0xSigner" (.mpeClaim mpeChecksummed 7 3 500)) (by decide))

/-- C4: the claim verifier is a total boolean function: every malformed
signature string makes it return `false`, an `mpeAddress` the packer
throws on makes it return `false` for every signature (both are the
`try-catch` path), and when an address is recovered the result is exactly
the case-insensitive comparison of the recovered address with the expected
signer. -/
theorem verify_never_throws_and_is_case_insensitive :
    ∀ (mpe : String) (cid nonce amt : ℕ) (expected : String),
    (∀ raw, verifyPaymentSignature mpe cid nonce amt (.malformed raw) expected
        = false) ∧
    (∀ e sig, mpeClaimHash mpe cid nonce amt = .error e →
      verifyPaymentSignature mpe cid nonce amt sig expected = false) ∧
    (∀ msg sig r, mpeClaimHash mpe cid nonce amt = .ok msg →
      recoverAddress msg sig = .ok r →
      verifyPaymentSignature mpe cid nonce amt sig expected =
        decide (jsToLowerCase r = jsToLowerCase expected)) := by
  intro mpe cid nonce amt expected
  refine ⟨?_, ?_, ?_⟩
  · intro raw
    cases hm : mpeClaimHash mpe cid nonce amt with
    | error e => simp [verifyPaymentSignature, hm]
    | ok msg => simp [verifyPaymentSignature, hm, recoverAddress]
  · intro e sig hm
    simp [verifyPaymentSignature, hm]
  · intro msg sig r hm hr
    rw [verifyPaymentSignature, hm]
    simp only [hr]
    by_cases hc : jsToLowerCase r = jsToLowerCase expected
    · simp [hc]
    · simp [hc]

/-- Witness for `verify_never_throws_and_is_case_insensitive`: a malformed
signature and an invalid MPE address each yield `false`, and a concrete
recovered address is compared case-insensitively. -/
theorem verify_never_throws_and_is_case_insensitive_witness :
    verifyPaymentSignature mpeLowerHex 1 2 3 (.malformed "not-hex!!") "0xAB" = false ∧
    verifyPaymentSignature "zzz" 1 2 3
      (.valid "0xab" (.mpeClaim "zzz" 1 2 3)) "0xAB" = false ∧
    verifyPaymentSignature mpeLowerHex 1 2 3
      (.valid "0xab" (.mpeClaim mpeChecksummed 1 2 3)) "0xAB" =
      decide (jsToLowerCase "0xab" = jsToLowerCase "0xAB") :=
  ⟨(verify_never_throws_and_is_case_insensitive mpeLowerHex 1 2 3 "0xAB").1
     "not-hex!!",
   (verify_never_throws_and_is_case_insensitive "zzz" 1 2 3 "0xAB").2.1
     "invalid address" (.valid "0xab" (.mpeClaim "zzz" 1 2 3)) (by decide),
   (verify_never_throws_and_is_case_insensitive mpeLowerHex 1 2 3 "0xAB").2.2
     (.mpeClaim mpeChecksummed 1 2 3)
     (.valid "0xab" (.mpeClaim mpeChecksummed 1 2 3)) "0xab" (by decide) (by decide)⟩

/-- Decoding a base64 character of a six-bit value gives that value
back. -/
theorem b64Index_b64Char : ∀ n, n < 64 → b64Index (b64Char n) = some n := by
  decide

/-- The padding character is not in the base64 alphabet. -/
theorem b64Index_pad : b64Index '=' = none := by
  decide

/-- Decoding a hex digit of a value below 16 gives that value back. -/
theorem hexDigitVal_hexChar : ∀ n, n < 16 → hexDigitVal (hexChar n) = some n := by
  decide

/-- Hex decoding inverts hex encoding on byte sequences. -/
theorem hexDecodePairs_hexEncodeChars :
    ∀ bs : List ℕ, (∀ b ∈ bs, b < 256) →
    hexDecodePairs (hexEncodeChars bs) = bs := by
  intro bs
  induction bs with
  | nil => intro _; rfl
  | cons b rest ih =>
    intro h
    have hb : b < 256 := h b (List.mem_cons_self _ _)
    have hhi : b / 16 < 16 := by omega
    have hlo : b % 16 < 16 := by omega
    simp only [hexEncodeChars, hexDecodePairs, hexDigitVal_hexChar _ hhi,
      hexDigitVal_hexChar _ hlo]
    rw [ih fun x hx => h x (List.mem_cons_of_mem _ hx)]
    have : b / 16 * 16 + b % 16 = b := by omega
    rw [this]

/-- Base64 decoding inverts base64 encoding, at the character-list
level. -/
theorem b64FromSextets_b64EncodeChars :
    ∀ bs : List ℕ, (∀ b ∈ bs, b < 256) →
    b64FromSextets ((b64EncodeChars bs).filterMap b64Index) = bs := by
  intro bs
  induction bs using b64EncodeChars.induct with
  | case1 => intro _; rfl
  | case2 b0 =>
    intro h
    have hb0 : b0 < 256 := h b0 (by simp)
    simp only [b64EncodeChars, List.filterMap_cons,
      b64Index_b64Char (b0 / 4) (by omega),
      b64Index_b64Char (b0 % 4 * 16) (by omega), b64Index_pad,
      List.filterMap_nil, b64FromSextets, List.cons.injEq, and_true]
    omega
  | case3 b0 b1 =>
    intro h
    have hb0 : b0 < 256 := h b0 (by simp)
    have hb1 : b1 < 256 := h b1 (by simp)
    simp only [b64EncodeChars, List.filterMap_cons,
      b64Index_b64Char (b0 / 4) (by omega),
      b64Index_b64Char (b0 % 4 * 16 + b1 / 16) (by omega),
      b64Index_b64Char (b1 % 16 * 4) (by omega), b64Index_pad,
      List.filterMap_nil, b64FromSextets, List.cons.injEq, and_true]
    constructor
    · omega
    · omega
  | case4 b0 b1 b2 rest ih =>
    intro h
    have hb0 : b0 < 256 := h b0 (by simp)
    have hb1 : b1 < 256 := h b1 (by simp)
    have hb2 : b2 < 256 := h b2 (by simp)
    have hrest : ∀ b ∈ rest, b < 256 := fun x hx => h x (by simp [hx])
    simp only [b64EncodeChars, List.filterMap_cons,
      b64Index_b64Char (b0 / 4) (by omega),
      b64Index_b64Char (b0 % 4 * 16 + b1 / 16) (by omega),
      b64Index_b64Char (b1 % 16 * 4 + b2 / 64) (by omega),
      b64Index_b64Char (b2 % 64) (by omega),
      List.filterMap_append, b64FromSextets, List.cons.injEq]
    refine ⟨by omega, by omega, by omega, ih hrest⟩

/-- Base64 decoding inverts base64 encoding on byte sequences. -/
theorem base64Decode_base64Encode (bs : List ℕ) (h : ∀ b ∈ bs, b < 256) :
    base64Decode (base64Encode bs) = bs :=
  b64FromSextets_b64EncodeChars bs h

/-- C5 counterexample: the free-call token of a 65-byte signature does not
base64-decode to the raw signature bytes (it decodes to the ASCII text of
the hex signature string). -/
theorem freecall_token_is_text_not_raw_bytes :
    base64Decode (freeCallTokenOfSignature exampleSignatureHex) ≠
      hexDecodePairs (exampleSignatureHex.data.drop 2) := by
  decide

/-- C5 amended: `createPaymentMetadata` carries all five logical fields and
its `snet-payment-channel-signature-bin` value base64-decodes to exactly
the raw signature bytes (the `GrpcClient` builder produces the same map);
`generateFreeCallToken`, by contrast, base64-encodes the UTF-8 *text* of
the hex signature string, so its token decodes to the ASCII bytes of that
text, not the raw signature bytes. -/
theorem payment_metadata_binary_safe_but_freecall_token_textual :
    ∀ (cid nonce amt : ℕ) (bs : List ℕ) (sig : String),
    (∀ b ∈ bs, b < 256) →
    sig.data = '0' :: 'x' :: hexEncodeChars bs →
    ((createPaymentMetadata cid nonce amt sig).lookup "snet-payment-type"
        = some "escrow" ∧
     (createPaymentMetadata cid nonce amt sig).lookup "snet-payment-channel-id"
        = some (toString cid) ∧
     (createPaymentMetadata cid nonce amt sig).lookup "snet-payment-channel-nonce"
        = some (toString nonce) ∧
     (createPaymentMetadata cid nonce amt sig).lookup "snet-payment-channel-amount"
        = some (toString amt) ∧
     base64Decode (((createPaymentMetadata cid nonce amt sig).lookup
         "snet-payment-channel-signature-bin").getD "") = bs) ∧
    GrpcClient.createPaymentMetadata cid nonce amt sig
      = createPaymentMetadata cid nonce amt sig ∧
    (∀ s2 : String, (∀ c ∈ s2.data, c.toNat < 256) →
      base64Decode (freeCallTokenOfSignature s2) = asciiBytes s2) := by
  intro cid nonce amt bs sig hbs hsig
  refine ⟨⟨rfl, rfl, rfl, rfl, ?_⟩, rfl, ?_⟩
  · show base64Decode (base64Encode (hexDecodePairs (sig.data.drop 2))) = bs
    rw [hsig]
    show base64Decode (base64Encode (hexDecodePairs (hexEncodeChars bs))) = bs
    rw [hexDecodePairs_hexEncodeChars bs hbs]
    exact base64Decode_base64Encode bs hbs
  · intro s2 h2
    refine base64Decode_base64Encode _ ?_
    intro b hb
    simp only [asciiBytes, List.mem_map] at hb
    obtain ⟨c, hc, rfl⟩ := hb
    exact h2 c hc

/-- Witness for `payment_metadata_binary_safe_but_freecall_token_textual`
at the two-byte signature `0x00ff` and the token of the text `0x00`. -/
theorem payment_metadata_binary_safe_witness :
    base64Decode (((createPaymentMetadata 1 2 3 "0x00ff").lookup
        "snet-payment-channel-signature-bin").getD "") = [0, 255] ∧
    base64Decode (freeCallTokenOfSignature "0x00") = asciiBytes "0x00" :=
  ⟨(payment_metadata_binary_safe_but_freecall_token_textual 1 2 3 [0, 255]
      "0x00ff" (by decide) (by decide)).1.2.2.2.2,
   (payment_metadata_binary_safe_but_freecall_token_textual 1 2 3 [0, 255]
      "0x00ff" (by decide) (by decide)).2.2 "0x00" (by decide)⟩

/-- C7 counterexample: `agixToCogs` accepts a negative display amount — it
converts `-1` to `-100000000` cogs and raises no `InvalidAmount`. -/
theorem agixToCogs_accepts_negative_input :
    agixToCogs (.num (ofInt (-1))) = .ok (-100000000) := by
  decide

/-- A cleared sign bit gives a non-negative mantissa. -/
theorem signedF_false_nonneg (m : ℕ) (e : ℤ) : 0 ≤ (signedF false m e).m := by
  simp [signedF]

/-- Rounding with the sign bit clear yields a non-negative mantissa. -/
theorem roundBits_false_nonneg (n : ℕ) (k : ℤ) (st : Bool) :
    0 ≤ (roundBits false n k st).m := by
  unfold roundBits
  dsimp only
  split
  · exact signedF_false_nonneg _ _
  · exact signedF_false_nonneg _ _

/-- Rounding a non-negative dyadic value yields a non-negative mantissa. -/
theorem roundDyadic_nonneg {p : ℤ} (k : ℤ) (hp : 0 ≤ p) :
    0 ≤ (roundDyadic p k).m := by
  unfold roundDyadic
  by_cases h0 : p = 0
  · simp [h0]
  · have hsign : decide (p < 0) = false := decide_eq_false (by omega)
    rw [if_neg h0, hsign]
    exact roundBits_false_nonneg _ _ _

/-- The floor of a finite value with non-negative mantissa is
non-negative. -/
theorem floorF_nonneg {a : F} (h : 0 ≤ a.m) : 0 ≤ floorF a := by
  unfold floorF
  split
  · positivity
  · exact Int.fdiv_nonneg h (by positivity)

/-- C7 amended: `agixToCogs` itself performs no validation — every input
whose binary64 product with `10^8` is finite, negative inputs included, is
converted and returned, and the conversion throws exactly when that
product is not finite (a `NaN` or infinite input, or a finite input so
large that the product overflows to an infinity), and then as a
`RangeError` from `BigInt`, not an `InvalidAmount`; the separate
`validateAmount` helper is what flags negative and non-finite amounts, by
returning `false`; and for non-negative inputs the excess fractional
precision is truncated toward zero (the floored product is non-negative,
where floor and truncation coincide). -/
theorem agixToCogs_no_validation_truncates :
    (∀ f : F, f.m < 0 → validateAmount (.num f) = false) ∧
    validateAmount .nan = false ∧
    validateAmount .inf = false ∧
    (∀ x g, jsMul x (.num (ofInt 100000000)) = .num g →
      agixToCogs x = .ok (floorF g)) ∧
    (∀ x, (∀ g, jsMul x (.num (ofInt 100000000)) ≠ .num g) →
      agixToCogs x = .error "RangeError: not an integer") ∧
    agixToCogs .nan = .error "RangeError: not an integer" ∧
    agixToCogs (.num (ofInt (10^301))) = .error "RangeError: not an integer" ∧
    agixToCogs (.num (ofInt (-(10^301)))) = .error "RangeError: not an integer" ∧
    (∀ f g : F, 0 ≤ f.m → jsMul (.num f) (.num (ofInt 100000000)) = .num g →
      0 ≤ floorF g) := by
  refine ⟨?_, rfl, rfl, ?_, ?_, rfl, by decide, by decide, ?_⟩
  · intro f hf
    have : (0 ≤ f.m) = False := by simp; omega
    simp [validateAmount, this]
  · intro x g h
    unfold agixToCogs
    rw [h]
    rfl
  · intro x h
    unfold agixToCogs
    cases hm : jsMul x (.num (ofInt 100000000)) with
    | num g => exact absurd hm (h g)
    | nan => rfl
    | inf => rfl
    | ninf => rfl
  · intro f g hf h
    have hg : 0 ≤ g.m := by
      have h2 : checkOverflow (mulF f (ofInt 100000000)) = .num g := h
      unfold checkOverflow at h2
      split at h2
      · split at h2 <;> exact absurd h2 (by simp)
      · have hgm : g = mulF f (ofInt 100000000) := by
          injection h2 with h3
          exact h3.symm
        rw [hgm]
        unfold mulF
        refine roundDyadic_nonneg _ ?_
        have : (0:ℤ) ≤ (ofInt 100000000).m := by decide
        exact mul_nonneg hf this
    exact floorF_nonneg hg

/-- Witness for `agixToCogs_no_validation_truncates`: `validateAmount`
rejects `-1` while `agixToCogs` converts `1` AGIX (to a non-negative cog
amount) and returns `RangeError` on an infinite input. -/
theorem agixToCogs_no_validation_truncates_witness :
    validateAmount (.num (ofInt (-1))) = false ∧
    agixToCogs (.num (ofInt 1)) = .ok (floorF (ofInt 100000000)) ∧
    agixToCogs .inf = .error "RangeError: not an integer" ∧
    0 ≤ floorF (ofInt 100000000) :=
  ⟨agixToCogs_no_validation_truncates.1 (ofInt (-1)) (by decide),
   agixToCogs_no_validation_truncates.2.2.2.1 (.num (ofInt 1))
     (ofInt 100000000) (by decide),
   agixToCogs_no_validation_truncates.2.2.2.2.1 .inf
     (by
       intro g hcontra
       rw [show jsMul .inf (.num (ofInt 100000000)) = .inf from by decide]
         at hcontra
       exact JsNum.noConfusion hcontra),
   agixToCogs_no_validation_truncates.2.2.2.2.2.2.2.2 (ofInt 1)
     (ofInt 100000000) (by decide) (by decide)⟩

/-- C9 counterexample: a 42-character `0x`-prefixed hex string that mixes
upper- and lower-case letters with a wrong EIP-55 checksum is rejected by
the EVM address check, so not every 42-character `0x`-prefixed hex string
of correct length is accepted. -/
theorem evm_check_rejects_mixed_case_bad_checksum :
    EthereumClient.isValidAddress "0xAAaAaAaaAaAaAaaAaAAAAAAAAaaaAaAaAaaAaaAa" = false := by
  decide

/-- C9 amended: a 42-character `0x`-prefixed hex string that does not mix
upper- and lower-case letters is accepted by the EVM check and rejected by
the UTXO check; a mixed-case one is accepted exactly when it equals its
EIP-55 checksummed form; an `addr1` string with a `[a-z0-9]+` payload is
accepted by the UTXO check and rejected by the EVM check; and an arbitrary
ASCII string fitting neither syntax is rejected by both. -/
theorem address_classification :
    (∀ body : List Char, body.all isHexDigitChar = true → body.length = 40 →
      (hasUpperHexLetter body = false ∨ hasLowerHexLetter body = false) →
      EthereumClient.isValidAddress ⟨'0' :: 'x' :: body⟩ = true ∧
      CardanoClient.isValidAddress ⟨'0' :: 'x' :: body⟩ = false) ∧
    (∀ body : List Char, body.all isHexDigitChar = true → body.length = 40 →
      hasUpperHexLetter body = true → hasLowerHexLetter body = true →
      EthereumClient.isValidAddress ⟨'0' :: 'x' :: body⟩ =
        decide (getChecksumAddressBody body = body)) ∧
    (∀ payload : List Char, payload ≠ [] →
      payload.all CardanoClient.isLowerAlnum = true →
      CardanoClient.isValidAddress
        ⟨'a' :: 'd' :: 'd' :: 'r' :: '1' :: payload⟩ = true ∧
      EthereumClient.isValidAddress
        ⟨'a' :: 'd' :: 'd' :: 'r' :: '1' :: payload⟩ = false) ∧
    EthereumClient.isValidAddress "hello world!" = false ∧
    CardanoClient.isValidAddress "hello world!" = false := by
  refine ⟨?_, ?_, ?_, by decide, by decide⟩
  · intro body h1 h2 h3
    constructor
    · unfold EthereumClient.isValidAddress
      simp only [ethersIsAddress]
      rw [show hex40 body = true from by simp [hex40, h1, h2]]
      simp only [if_true]
      rcases h3 with h | h <;> simp [h]
    · rfl
  · intro body h1 h2 h3 h4
    unfold EthereumClient.isValidAddress
    simp only [ethersIsAddress]
    rw [show hex40 body = true from by simp [hex40, h1, h2]]
    simp [h3, h4]
  · intro payload hne h2
    constructor
    · cases payload with
      | nil => exact absurd rfl hne
      | cons c cs => exact h2
    · rfl

/-- Witness for `address_classification`: the all-lower-case zero body is
accepted as an EVM address and rejected as a Cardano address, and the
payload `q` makes an accepted Cardano address that the EVM check
rejects. -/
theorem address_classification_witness :
    EthereumClient.isValidAddress ⟨'0' :: 'x' :: List.replicate 40 'a'⟩ = true ∧
    CardanoClient.isValidAddress ⟨'a' :: 'd' :: 'd' :: 'r' :: '1' :: ['q']⟩ = true ∧
    EthereumClient.isValidAddress ⟨'a' :: 'd' :: 'd' :: 'r' :: '1' :: ['q']⟩ = false :=
  ⟨(address_classification.1 (List.replicate 40 'a') (by decide) (by decide)
      (Or.inl (by decide))).1,
   (address_classification.2.2.1 ['q'] (by decide) (by decide)).1,
   (address_classification.2.2.1 ['q'] (by decide) (by decide)).2⟩
